import Mathlib

/-!
Shallow embedding of the leaderbordle parsing/ranking/aggregation core
(files common.py, variants.py, leaderbordle.py, storage.py).

Conventions of the embedding:
* Python regular expressions used by the variants are linear patterns whose
  greedy pieces are always followed by a character that the piece cannot
  consume, so maximal-munch recursive matchers over `List Char` reproduce
  re.match exactly on these patterns.  re.match anchors at the start of the
  text and ignores trailing characters.
* The regex class \d is modelled as ASCII digits (Char.isDigit); no claim
  depends on non-ASCII decimal digits.
* Python exceptions (KeyError, ValueError, ZeroDivisionError, IndexError)
  are modelled with `Except String`.
* Python float values that flow through the code (avg_guesses, time_secs)
  are modelled as rationals; Python int as Int or Nat.
-/

/-- Matches a literal character sequence at the head of the input and
returns the rest, mirroring a literal regex piece. -/
def stripLit : List Char → List Char → Option (List Char)
  | [], cs => some cs
  | _ :: _, [] => none
  | p :: ps, c :: cs => if c = p then stripLit ps cs else none

/-- Consumes a maximal run of ASCII digits, accumulating their numeric
value (the regex piece \d+ followed by a non-digit, combined with the int()
conversion applied by the Python code). -/
def digitsVal : List Char → Nat → Nat × List Char
  | [], acc => (acc, [])
  | c :: cs, acc =>
    if c.isDigit then digitsVal cs (acc * 10 + (c.toNat - 48)) else (acc, c :: cs)

/-- Greedy \d+ : at least one digit, maximal munch, numeric value. -/
def takeDigits (cs : List Char) : Option (Nat × List Char) :=
  match cs with
  | [] => none
  | c :: _ => if c.isDigit then some (digitsVal cs 0) else none

/-- Drops a maximal run of newline characters. -/
def dropNLs : List Char → List Char
  | '\n' :: cs => dropNLs cs
  | cs => cs

/-- Greedy \n+ : at least one newline, maximal munch. -/
def takeNLs (cs : List Char) : Option (List Char) :=
  match cs with
  | '\n' :: rest => some (dropNLs rest)
  | _ => none

/-- Python str.index restricted to a single character: position of the first
occurrence, or none (where Python raises ValueError). -/
def idxOf : List Char → Char → Option Nat
  | [], _ => none
  | c :: cs, t => if c = t then some 0 else (idxOf cs t).map (· + 1)

/-- common.py Result, the parsed outcome of one attempt.  The Python class
stores iteration as the captured digit string; it is embedded as the numeric
value of those digits.  guesses is always passed through int(). -/
structure Result where
  iteration : Nat
  success : Bool
  guesses : Nat
  time_secs : Option Rat := none
  difficulty : Option String := none
  deriving DecidableEq

/-- The tail of the Wordle pattern after the guesses alternation: a slash,
one digit, then the optional hard-mode star group.  The boolean reports
whether the hard group captured a star. -/
def wordleTail (it : Nat) (g : Option Nat) : List Char → Option (Nat × Option Nat × Bool)
  | '/' :: d :: rest => if d.isDigit then some (it, g, rest.head? = some '*') else none
  | _ => none

/-- Wordle._matcher: the token Wordle, a space, the iteration digits, a
space, either digits or the fail marker X, then the slash-digit-star tail.
Returns (iteration, guesses capture as some n or none for the X branch,
hard group nonempty). -/
def wordleMatch (s : String) : Option (Nat × Option Nat × Bool) :=
  match stripLit "Wordle ".data s.data with
  | none => none
  | some cs1 =>
    match takeDigits cs1 with
    | none => none
    | some (it, cs2) =>
      match cs2 with
      | ' ' :: cs3 =>
        match takeDigits cs3 with
        | some (g, cs4) => wordleTail it (some g) cs4
        | none =>
          match cs3 with
          | 'X' :: cs4 => wordleTail it none cs4
          | _ => none
      | _ => none

/-- The standard-variant parse of variants.py lines 89-103 instantiated
with the Wordle matcher and the default max_guesses of 6. -/
def wordleParse (s : String) : Option Result :=
  match wordleMatch s with
  | none => none
  | some (it, gOpt, hard) =>
    some { iteration := it
           success := gOpt.isSome
           guesses := match gOpt with | some g => g | none => 6
           difficulty := some (if hard then "hard" else "") }

/-- The character class of the Heardle success group. -/
def heardleMark (c : Char) : Bool :=
  c = '🔈' || c = '🔉' || c = '🔊' || c = '🔇'

/-- Heardle matcher: hash Heardle hash(\d+)\n+([class])(.*), where (.*)
greedily captures the following non-newline characters. -/
def heardleMatch (s : String) : Option (Nat × Char × List Char) :=
  match stripLit "#Heardle #".data s.data with
  | none => none
  | some cs1 =>
    match takeDigits cs1 with
    | none => none
    | some (it, cs2) =>
      match takeNLs cs2 with
      | none => none
      | some cs3 =>
        match cs3 with
        | c :: cs4 =>
          if heardleMark c then some (it, c, cs4.takeWhile (· ≠ '\n')) else none
        | [] => none

/-- Heardle.parse (variants.py lines 248-257).  When the success mark is not
the muted speaker, the code evaluates guess_emojis.index of the green square,
which raises ValueError when the green square is absent; the error branch
records that exception. -/
def heardleParse (s : String) : Except String (Option Result) :=
  match heardleMatch s with
  | none => .ok none
  | some (it, mark, emojis) =>
    if mark ≠ '🔇' then
      match idxOf emojis '🟩' with
      | none => .error "ValueError"
      | some p => .ok (some { iteration := it, success := true, guesses := p + 1 })
    else
      .ok (some { iteration := it, success := false, guesses := 6 })

/-- Semantle solved matcher: I solved Semantle hash(\d+) in (\d+) guesses.
The final dot of the pattern is the regex any-character and must match one
non-newline character. -/
def semSolvedMatch (s : String) : Option (Nat × Nat) :=
  match stripLit "I solved Semantle #".data s.data with
  | none => none
  | some cs1 =>
    match takeDigits cs1 with
    | none => none
    | some (it, cs2) =>
      match stripLit " in ".data cs2 with
      | none => none
      | some cs3 =>
        match takeDigits cs3 with
        | none => none
        | some (g, cs4) =>
          match stripLit " guesses".data cs4 with
          | none => none
          | some cs5 =>
            match cs5 with
            | c :: _ => if c ≠ '\n' then some (it, g) else none
            | [] => none

/-- Semantle first-guess matcher: I got Semantle (\d+) on my first guess! -/
def semFirstMatch (s : String) : Option Nat :=
  match stripLit "I got Semantle ".data s.data with
  | none => none
  | some cs1 =>
    match takeDigits cs1 with
    | none => none
    | some (it, cs2) =>
      match stripLit " on my first guess!".data cs2 with
      | none => none
      | some _ => some it

/-- Semantle.parse (variants.py lines 302-317): the solved matcher is tried
first, then the first-guess matcher; both branches produce success = true. -/
def semantleParse (s : String) : Option Result :=
  match semSolvedMatch s with
  | some (it, g) => some { iteration := it, success := true, guesses := g }
  | none =>
    match semFirstMatch s with
    | some it => some { iteration := it, success := true, guesses := 1 }
    | none => none

/-- Effects of the on_message handler (leaderbordle.py lines 29-44):
the record_result calls issued, in loop order, and whether the message fell
through to process_commands. -/
structure MsgEffects where
  recorded : List (String × Result)
  processedCommands : Bool
  deriving DecidableEq

/-- The for-loop of on_message over the registry values, parameterized by
the (name, parse) pairs of the registry: a parser returning none is skipped,
every match is recorded and sets was_parsed.  Returns (recorded results in
order, was_parsed). -/
def msgLoop (text : String) : List (String × (String → Option Result)) → List (String × Result) × Bool
  | [] => ([], false)
  | nv :: rest =>
    match nv.2 text with
    | none => msgLoop text rest
    | some r =>
      let tail := msgLoop text rest
      ((nv.1, r) :: tail.1, true)

/-- on_message: runs the loop, then calls process_commands exactly when no
variant parsed the message. -/
def onMessage (ps : List (String × (String → Option Result))) (text : String) : MsgEffects :=
  let out := msgLoop text ps
  { recorded := out.1, processedCommands := !out.2 }

/-- Outcome of the leaders command argument validation
(leaderbordle.py lines 57-65): either an early return with a user-facing
message and no store call, or the read_leaders store call with the given
days value. -/
inductive LeadersOutcome where
  | rejected (msg : String)
  | storeCall (days : Int)
  deriving DecidableEq

/-- The days validation at the top of the leaders command. -/
def leadersCmd (days : Int) : LeadersOutcome :=
  if days < 1 then
    .rejected "The number of days must be greater than or equal to 1."
  else if days > 30 then
    .rejected "The number of days must be less than or equal to 30."
  else
    .storeCall days

/-- One leaderboard candidate as built by SupabaseStore.read_leaders:
the per-user dict with the successes and avg_guesses keys. -/
structure Candidate where
  successes : Int
  avg_guesses : Rat
  deriving DecidableEq

/-- The single-number sort key of read_leaders (storage.py line 110). -/
def sortKey (c : Candidate) : Rat :=
  (c.successes : Rat) * 1000000 + (100000 - c.avg_guesses)

/-- The relation under which read_leaders sorts (user_id, data) pairs:
descending by sortKey, ties keeping insertion order (the Python sorted is
stable and is called with reverse=True). -/
def keyRel (x y : Int × Candidate) : Prop := sortKey y.2 ≤ sortKey x.2

instance : DecidableRel keyRel :=
  fun x y => inferInstanceAs (Decidable (sortKey y.2 ≤ sortKey x.2))

instance : IsTotal (Int × Candidate) keyRel :=
  ⟨fun a b => le_total (sortKey b.2) (sortKey a.2)⟩

instance : IsTrans (Int × Candidate) keyRel :=
  ⟨fun _ _ _ h1 h2 => le_trans h2 h1⟩

/-- The sorting step of SupabaseStore.read_leaders on one variant entry:
a stable sort of the (user_id, data) pairs, descending by the numeric key. -/
def readLeadersSort (l : List (Int × Candidate)) : List (Int × Candidate) :=
  List.insertionSort keyRel l

/-- The canonical leaderboard order the specification asserts for the
read_leaders output: strictly more successes first, then lower-or-equal
average guesses among equal successes. -/
def canonRel (x y : Int × Candidate) : Prop :=
  y.2.successes < x.2.successes ∨
    (x.2.successes = y.2.successes ∧ x.2.avg_guesses ≤ y.2.avg_guesses)

instance : DecidableRel canonRel :=
  fun _ _ => inferInstanceAs (Decidable (_ ∨ _))

/-- sys.maxsize on a 64-bit build, the initial last_successes value. -/
def sysMaxsize : Int := 9223372036854775807

/-- Python subscript on the per-user data dict built by read_leaders: only
the successes and avg_guesses keys exist; any other key raises KeyError. -/
def candGet (c : Candidate) (k : String) : Except String Rat :=
  if k = "successes" then .ok (c.successes : Rat)
  else if k = "avg_guesses" then .ok c.avg_guesses
  else .error ("KeyError: " ++ k)

/-- The medal loop of the leaders command (leaderbordle.py lines 82-110)
for one variant, with every user resolvable.  The accumulator records the
(medal index, user_id) pairs emitted into the field message.  List indexing
into the three medal emojis and dict subscripts are bounds-checked as in
Python, so out-of-range accesses surface as errors. -/
def leadersLoop : List (Int × Candidate) → Nat → Nat → Nat → Rat → Rat →
    List (Nat × Int) → Except String (List (Nat × Int))
  | [], _, _, _, _, _, acc => .ok acc
  | (uid, data) :: rest, medalsAwarded, nextMedal, numTied, lastSuccesses, lastGuesses, acc =>
    if nextMedal < 3 then
      let acc := acc ++ [(nextMedal, uid)]
      let medalsAwarded := medalsAwarded + 1
      if (data.successes : Rat) < lastSuccesses ∨ data.avg_guesses > lastGuesses then
        if medalsAwarded > 2 then
          .ok acc
        else
          match candGet data "last_guesses" with
          | .error e => .error e
          | .ok lg =>
            leadersLoop rest medalsAwarded (nextMedal + numTied) 1 (data.successes : Rat) lg acc
      else
        leadersLoop rest medalsAwarded nextMedal (numTied + 1) lastSuccesses lastGuesses acc
    else
      .error "IndexError"

/-- The medal loop started with the initial values of the leaders command. -/
def leadersRank (cands : List (Int × Candidate)) : Except String (List (Nat × Int)) :=
  leadersLoop cands 0 0 1 (sysMaxsize : Rat) 0 []

/-- One pre-aggregated row returned by the read_user_stats RPC
(storage.py lines 124-131): variant, guesses, success, total occurrence
count, optional time. -/
structure Row where
  variant : String
  guesses : Nat
  success : Bool
  total : Nat
  time_secs : Option Rat
  deriving DecidableEq

/-- storage.py VariantStats with its constructor defaults. -/
structure VariantStats where
  attempts : Nat := 0
  successes : Nat := 0
  guess_distribution : List (Nat × Nat) := []
  total_time_secs : Rat := 0
  deriving DecidableEq

/-- The default-constructed VariantStats used by setdefault. -/
def emptyStats : VariantStats := {}

/-- The dict update d[g] = d.setdefault(g, 0) + t on the guess distribution:
an existing key is incremented in place, a missing key is appended at the
end, matching Python dict insertion order. -/
def bump : List (Nat × Nat) → Nat → Nat → List (Nat × Nat)
  | [], g, t => [(g, t)]
  | (k, v) :: rest, g, t =>
    if k = g then (k, v + t) :: rest else (k, v) :: bump rest g t

/-- Sum of the guess distribution values. -/
def sumDist (d : List (Nat × Nat)) : Nat := (d.map Prod.snd).sum

/-- The read_user_stats accumulation body for one row (storage.py lines
125-131): attempts and successes grow by the row total, the distribution
entry for the guesses value grows by the total, and a truthy time_secs is
added to the running time. -/
def applyRow (s : VariantStats) (r : Row) : VariantStats :=
  { attempts := s.attempts + r.total
    successes := if r.success then s.successes + r.total else s.successes
    guess_distribution := bump s.guess_distribution r.guesses r.total
    total_time_secs :=
      match r.time_secs with
      | some t => if t ≠ 0 then s.total_time_secs + t else s.total_time_secs
      | none => s.total_time_secs }

/-- One iteration of the row loop over the all_stats dict, modelled as an
association list in insertion order: setdefault followed by the in-place
mutation of the found stats object. -/
def assocStep : List (String × VariantStats) → Row → List (String × VariantStats)
  | [], r => [(r.variant, applyRow emptyStats r)]
  | (v, s) :: rest, r =>
    if v = r.variant then (v, applyRow s r) :: rest else (v, s) :: assocStep rest r

/-- The full row loop of SupabaseStore.read_user_stats. -/
def accumRows (rows : List Row) : List (String × VariantStats) :=
  rows.foldl assocStep []

/-- The ascending order used to re-materialize each guess distribution.
The keys of a distribution built by bump are distinct, so comparing keys
reproduces the Python sorted on the (key, value) items. -/
def distRel (a b : Nat × Nat) : Prop := a.1 ≤ b.1

instance : DecidableRel distRel :=
  fun a b => inferInstanceAs (Decidable (a.1 ≤ b.1))

instance : IsTotal (Nat × Nat) distRel :=
  ⟨fun a b => Nat.le_total a.1 b.1⟩

instance : IsTrans (Nat × Nat) distRel :=
  ⟨fun _ _ _ h1 h2 => Nat.le_trans h1 h2⟩

/-- dict(sorted(distribution.items())). -/
def sortDistAsc (d : List (Nat × Nat)) : List (Nat × Nat) :=
  List.insertionSort distRel d

/-- The final pass of read_user_stats that sorts each distribution. -/
def finalizeStats (s : VariantStats) : VariantStats :=
  { s with guess_distribution := sortDistAsc s.guess_distribution }

/-- SupabaseStore.read_user_stats (storage.py lines 118-136) from the RPC
rows to the per-variant stats mapping, in dict insertion order. -/
def readUserStatsS (rows : List Row) : List (String × VariantStats) :=
  (accumRows rows).map (fun p => (p.1, finalizeStats p.2))

/-- The distribution loop of InMemoryStore.read_user_stats over the results
of one user for one variant (storage.py lines 67-71). -/
def distOfResults (results : List Result) : List (Nat × Nat) :=
  results.foldl (fun d r => bump d r.guesses 1) []

/-- The per-variant stats built by InMemoryStore.read_user_stats
(storage.py lines 62-73). -/
def inMemStats (results : List Result) : VariantStats :=
  { attempts := results.length
    successes := (results.filter (fun r => r.success)).length
    guess_distribution := sortDistAsc (distOfResults results)
    total_time_secs := 0 }

/-- Python division with the ZeroDivisionError behaviour. -/
def pyDiv (a b : Rat) : Except String Rat :=
  if b = 0 then .error "ZeroDivisionError" else .ok (a / b)

/-- Numerator of the average-guesses display value:
sum(k * v for k, v in distribution.items()). -/
def weightedSum (d : List (Nat × Nat)) : Nat :=
  (d.map (fun p => p.1 * p.2)).sum

/-- Python attribute access on a VariantStats object.  The class
(storage.py lines 7-12) defines attempts, successes, guess_distribution and
total_time_secs; any other attribute name raises AttributeError.  Only the
distribution-valued attributes are needed here. -/
def statsGetAttr (s : VariantStats) (a : String) : Except String (List (Nat × Nat)) :=
  if a = "guess_distribution" then .ok s.guess_distribution
  else .error ("AttributeError: " ++ a)

/-- One embed field of the stats user command (leaderbordle.py lines
140-146), evaluated in Python order: first the success percentage of line
144 (ZeroDivisionError when attempts is zero), then line 145, which reads
the attribute named distribution from the stats object before the average
division can happen. -/
def renderEntry (p : String × VariantStats) : Except String (String × Rat × Rat) :=
  match pyDiv (p.2.successes : Rat) (p.2.attempts : Rat) with
  | .error e => .error e
  | .ok rate =>
    match statsGetAttr p.2 "distribution" with
    | .error e => .error e
    | .ok d =>
      match pyDiv (weightedSum d : Rat) (sumDist d : Rat) with
      | .error e => .error e
      | .ok avg => .ok (p.1, rate * 100, avg)

/-- The field loop of the user command: the first exception aborts the
command, otherwise all fields are produced in order. -/
def exceptMapList (f : α → Except String β) : List α → Except String (List β)
  | [] => .ok []
  | x :: xs =>
    match f x with
    | .error e => .error e
    | .ok y =>
      match exceptMapList f xs with
      | .error e => .error e
      | .ok ys => .ok (y :: ys)

/-- The stats user command (leaderbordle.py lines 131-148) after the store
read: an empty mapping short-circuits to the no-stats message (no fields),
otherwise every entry is rendered unconditionally. -/
def renderUserStats (stats : List (String × VariantStats)) :
    Except String (List (String × Rat × Rat)) :=
  if stats.length = 0 then .ok [] else exceptMapList renderEntry stats

theorem sumDist_bump (d : List (Nat × Nat)) (g t : Nat) :
    sumDist (bump d g t) = sumDist d + t := by
  induction d with
  | nil => simp [bump, sumDist]
  | cons kv rest ih =>
    obtain ⟨k, v⟩ := kv
    by_cases hk : k = g
    · simp [bump, hk, sumDist]
      omega
    · simp only [bump, if_neg hk, sumDist, List.map_cons, List.sum_cons] at ih ⊢
      omega

theorem sumDist_sortDistAsc (d : List (Nat × Nat)) :
    sumDist (sortDistAsc d) = sumDist d := by
  unfold sumDist sortDistAsc
  exact List.Perm.sum_eq ((List.perm_insertionSort distRel d).map Prod.snd)

theorem foldl_bump_sum (results : List Result) :
    ∀ d : List (Nat × Nat),
      sumDist (results.foldl (fun d r => bump d r.guesses 1) d) = sumDist d + results.length := by
  induction results with
  | nil => intro d; simp
  | cons r rest ih =>
    intro d
    rw [List.foldl_cons, ih, sumDist_bump]
    simp only [List.length_cons]
    omega

theorem assocStep_inv {P : VariantStats → Prop} {r : Row}
    (h1 : ∀ s, P s → P (applyRow s r)) (h2 : P (applyRow emptyStats r)) :
    ∀ m : List (String × VariantStats), (∀ p ∈ m, P p.2) → ∀ p ∈ assocStep m r, P p.2 := by
  intro m
  induction m with
  | nil =>
    intro _ p hp
    simp only [assocStep, List.mem_singleton] at hp
    subst hp
    exact h2
  | cons q rest ih =>
    intro hm p hp
    obtain ⟨v, s⟩ := q
    simp only [assocStep] at hp
    split at hp
    · rcases List.mem_cons.mp hp with hp | hp
      · subst hp
        exact h1 s (hm (v, s) (List.mem_cons_self _ _))
      · exact hm p (List.mem_cons_of_mem _ hp)
    · rcases List.mem_cons.mp hp with hp | hp
      · subst hp
        exact hm (v, s) (List.mem_cons_self _ _)
      · exact ih (fun z hz => hm z (List.mem_cons_of_mem _ hz)) p hp

theorem foldl_assocStep_inv {P : VariantStats → Prop} :
    ∀ (rows : List Row) (m : List (String × VariantStats)),
      (∀ r ∈ rows, (∀ s, P s → P (applyRow s r)) ∧ P (applyRow emptyStats r)) →
      (∀ p ∈ m, P p.2) → ∀ p ∈ rows.foldl assocStep m, P p.2 := by
  intro rows
  induction rows with
  | nil => intro m _ hm p hp; exact hm p hp
  | cons r rest ih =>
    intro m hr hm p hp
    rw [List.foldl_cons] at hp
    exact ih (assocStep m r)
      (fun z hz => hr z (List.mem_cons_of_mem _ hz))
      (assocStep_inv (hr r (List.mem_cons_self _ _)).1 (hr r (List.mem_cons_self _ _)).2 m hm)
      p hp

theorem renderEntry_attrError (p : String × VariantStats) (h1 : p.2.attempts ≠ 0) :
    renderEntry p = .error "AttributeError: distribution" := by
  have hA : ((p.2.attempts : Rat)) ≠ 0 := by exact_mod_cast h1
  simp [renderEntry, pyDiv, hA, statsGetAttr]

theorem assocStep_ne_nil (m : List (String × VariantStats)) (r : Row) :
    assocStep m r ≠ [] := by
  cases m with
  | nil => simp [assocStep]
  | cons q rest =>
    obtain ⟨v, s⟩ := q
    simp only [assocStep]
    split <;> simp

theorem foldl_assocStep_ne_nil :
    ∀ (rows : List Row) (m : List (String × VariantStats)), m ≠ [] →
      rows.foldl assocStep m ≠ [] := by
  intro rows
  induction rows with
  | nil => intro m hm; exact hm
  | cons r rest ih =>
    intro m _
    rw [List.foldl_cons]
    exact ih (assocStep m r) (assocStep_ne_nil m r)

theorem msgLoop_fst (text : String) :
    ∀ ps : List (String × (String → Option Result)),
      (msgLoop text ps).1 = ps.filterMap (fun nv => (nv.2 text).map (fun r => (nv.1, r))) := by
  intro ps
  induction ps with
  | nil => rfl
  | cons nv rest ih =>
    cases h : nv.2 text with
    | none => simp [msgLoop, h, ih]
    | some r => simp [msgLoop, h, ih]

theorem msgLoop_snd (text : String) :
    ∀ ps : List (String × (String → Option Result)),
      (msgLoop text ps).2 = !(msgLoop text ps).1.isEmpty := by
  intro ps
  induction ps with
  | nil => rfl
  | cons nv rest ih =>
    cases h : nv.2 text with
    | none => simp [msgLoop, h, ih]
    | some r => simp [msgLoop, h]

/-- C1: on the candidate list A(successes 10, avg 3.0), B(10, 3.0),
C(9, 2.5), D(8, 4.0), with every user resolvable, the medal loop of the
leaders command does not produce the claimed medal assignment: it raises
KeyError on the nonexistent last_guesses key of the per-user data dict
while processing the very first candidate. -/
theorem c1_leaders_keyerror :
    leadersRank [(1, ⟨10, 3⟩), (2, ⟨10, 3⟩), (3, ⟨9, 5/2⟩), (4, ⟨8, 4⟩)] =
      .error "KeyError: last_guesses" := rfl

/-- C2: Heardle.parse does not return a record or no-match on every input:
on a text whose header and success marker match but whose guess-emoji
sequence contains no green square, the unguarded str.index call raises
ValueError. -/
theorem c2_heardle_valueerror :
    heardleParse "#Heardle #1\n🔊⬛⬛" = .error "ValueError" := rfl

/-- C3: Wordle.parse maps the three specification examples to the expected
records: iteration 500, success true, guesses 4 and a difficulty that is
not hard; the starred text additionally sets difficulty hard; the X text
gives success false with guesses 6. -/
theorem c3_wordle_examples :
    wordleParse "Wordle 500 4/6" =
        some { iteration := 500, success := true, guesses := 4, difficulty := some "" } ∧
      (some "" : Option String) ≠ some "hard" ∧
      wordleParse "Wordle 500 4/6*" =
        some { iteration := 500, success := true, guesses := 4, difficulty := some "hard" } ∧
      wordleParse "Wordle 500 X/6" =
        some { iteration := 500, success := false, guesses := 6, difficulty := some "" } :=
  ⟨rfl, by decide, rfl, rfl⟩

/-- C4 counterexample: the claimed interval invariant fails: the text
Wordle 500 0/6 parses to a success record whose guesses value 0 is outside
[1, 6]. -/
theorem c4_counterexample :
    wordleParse "Wordle 500 0/6" =
        some { iteration := 500, success := true, guesses := 0, difficulty := some "" } ∧
      ¬ (1 ≤ (0 : Nat) ∧ (0 : Nat) ≤ 6) :=
  ⟨rfl, by decide⟩

/-- C4 amended: for every input text, if the standard Wordle parse returns
a record then success false implies guesses equals the maximum of 6; the
[1, max_guesses] bound on success records does not hold because the parser
accepts any captured digit value. -/
theorem c4_amended (s : String) (r : Result) (h : wordleParse s = some r)
    (hf : r.success = false) : r.guesses = 6 := by
  unfold wordleParse at h
  rcases hm : wordleMatch s with _ | ⟨it, gOpt, hard⟩ <;> rw [hm] at h
  · cases h
  · cases gOpt with
    | some g => cases h; simp at hf
    | none => cases h; rfl

/-- C4 witness: the amended theorem applied to the failure example. -/
theorem c4_witness :
    wordleParse "Wordle 500 X/6" = some ⟨500, false, 6, none, some ""⟩ ∧
      (⟨500, false, 6, none, some ""⟩ : Result).guesses = 6 :=
  ⟨rfl, c4_amended "Wordle 500 X/6" ⟨500, false, 6, none, some ""⟩ rfl rfl⟩

/-- C5: for every parser list and every message text, the on_message loop
records exactly the matches of every parser, in loop order, and falls
through to command processing exactly when no parser matched. -/
theorem c5_dispatch_records_all (ps : List (String × (String → Option Result)))
    (text : String) :
    (onMessage ps text).recorded =
        ps.filterMap (fun nv => (nv.2 text).map (fun r => (nv.1, r))) ∧
      (onMessage ps text).processedCommands = (onMessage ps text).recorded.isEmpty := by
  refine ⟨msgLoop_fst text ps, ?_⟩
  show (!(msgLoop text ps).2) = (msgLoop text ps).1.isEmpty
  rw [msgLoop_snd, Bool.not_not]

/-- C6: the leaders command reaches the read_leaders store call exactly for
days between 1 and 30 inclusive; 0 and 31 are rejected with the user-facing
validation messages, 1 and 30 are accepted. -/
theorem c6_days_validation :
    (∀ d : Int, leadersCmd d = .storeCall d ↔ 1 ≤ d ∧ d ≤ 30) ∧
      leadersCmd 0 = .rejected "The number of days must be greater than or equal to 1." ∧
      leadersCmd 31 = .rejected "The number of days must be less than or equal to 30." ∧
      leadersCmd 1 = .storeCall 1 ∧
      leadersCmd 30 = .storeCall 30 := by
  refine ⟨fun d => ?_, rfl, rfl, rfl, rfl⟩
  unfold leadersCmd
  split_ifs with h1 h2
  · simp only [reduceCtorEq, false_iff]
    omega
  · simp only [reduceCtorEq, false_iff]
    omega
  · simp only [true_iff]
    omega

/-- C6 witness: a concrete accepted value through the validation theorem. -/
theorem c6_witness : leadersCmd 5 = .storeCall 5 :=
  (c6_days_validation.1 5).2 (by omega)

/-- C7 counterexample: the claimed canonical order of the read_leaders
output fails without a bound on avg_guesses: with candidates
(user 1, successes 1, avg 0) and (user 2, successes 2, avg 2000000), the
single-number sort key places user 1 first although user 2 has strictly
more successes. -/
theorem c7_counterexample :
    readLeadersSort [(1, ⟨1, 0⟩), (2, ⟨2, 2000000⟩)] =
        [(1, ⟨1, 0⟩), (2, ⟨2, 2000000⟩)] ∧
      ¬ canonRel (1, ⟨1, 0⟩) (2, ⟨2, 2000000⟩) := by
  constructor
  · norm_num [readLeadersSort, List.insertionSort, List.orderedInsert, keyRel, sortKey]
  · decide

/-- C7 amended: provided every candidate's avg_guesses lies in
[0, 1000000), the read_leaders sort orders every variant entry canonically:
each earlier candidate has strictly more successes than each later one, or
equal successes and an average no larger. -/
theorem c7_amended (l : List (Int × Candidate))
    (hb : ∀ p ∈ l, 0 ≤ p.2.avg_guesses ∧ p.2.avg_guesses < 1000000) :
    (readLeadersSort l).Pairwise canonRel := by
  have hs : (readLeadersSort l).Pairwise keyRel := List.sorted_insertionSort keyRel l
  have hperm : List.Perm (readLeadersSort l) l := List.perm_insertionSort keyRel l
  refine hs.imp_of_mem ?_
  intro a b ha hbm hr
  obtain ⟨ha0, ha1⟩ := hb a (hperm.mem_iff.mp ha)
  obtain ⟨hb0, hb1⟩ := hb b (hperm.mem_iff.mp hbm)
  unfold keyRel sortKey at hr
  unfold canonRel
  rcases lt_trichotomy a.2.successes b.2.successes with hlt | heq | hgt
  · exfalso
    have hc : (a.2.successes : Rat) + 1 ≤ (b.2.successes : Rat) := by
      exact_mod_cast hlt
    linarith
  · right
    have hc : (a.2.successes : Rat) = (b.2.successes : Rat) := by exact_mod_cast heq
    exact ⟨heq, by linarith⟩
  · left
    exact hgt

/-- C7 witness: the amended theorem at a concrete in-range candidate list. -/
theorem c7_witness :
    (readLeadersSort [(1, ⟨2, 3⟩), (2, ⟨1, 4⟩)]).Pairwise canonRel :=
  c7_amended [(1, ⟨2, 3⟩), (2, ⟨1, 4⟩)] (by decide)

/-- C8: every VariantStats produced by read_user_stats satisfies
sum(guess_distribution.values()) == attempts, both for the Supabase
aggregation over RPC rows and for the in-memory aggregation over stored
results. -/
theorem c8_distribution_sum :
    (∀ (rows : List Row), ∀ p ∈ readUserStatsS rows,
        sumDist p.2.guess_distribution = p.2.attempts) ∧
      (∀ results : List Result,
        sumDist (inMemStats results).guess_distribution = (inMemStats results).attempts) := by
  constructor
  · intro rows p hp
    unfold readUserStatsS at hp
    obtain ⟨q, hq, rfl⟩ := List.mem_map.mp hp
    have hinv := foldl_assocStep_inv
      (P := fun s => sumDist s.guess_distribution = s.attempts) rows []
      (fun r _ =>
        ⟨fun s hs => by simp [applyRow, sumDist_bump, hs],
         by simp [applyRow, emptyStats, bump, sumDist]⟩)
      (by simp)
    have hq2 := hinv q hq
    simpa [finalizeStats, sumDist_sortDistAsc] using hq2
  · intro results
    show sumDist (sortDistAsc (distOfResults results)) = results.length
    rw [sumDist_sortDistAsc]
    unfold distOfResults
    rw [foldl_bump_sum]
    simp [sumDist]

/-- C8 witness: the invariant read off a concrete row list and a concrete
result list through the theorem. -/
theorem c8_witness :
    sumDist (⟨2, 2, [(3, 2)], 0⟩ : VariantStats).guess_distribution =
        (⟨2, 2, [(3, 2)], 0⟩ : VariantStats).attempts ∧
      sumDist (inMemStats [⟨1, true, 3, none, none⟩]).guess_distribution =
        (inMemStats [⟨1, true, 3, none, none⟩]).attempts :=
  ⟨c8_distribution_sum.1 [⟨"Wordle", 3, true, 2, none⟩] ("Wordle", ⟨2, 2, [(3, 2)], 0⟩)
      (by decide),
    c8_distribution_sum.2 [⟨1, true, 3, none, none⟩]⟩

/-- C9 counterexample: read_user_stats can return an entry whose attempts
is zero (a row with total 0), and the user command then raises
ZeroDivisionError on that entry instead of excluding it. -/
theorem c9_counterexample :
    readUserStatsS [⟨"Wordle", 3, true, 0, none⟩] = [("Wordle", ⟨0, 0, [(3, 0)], 0⟩)] ∧
      renderUserStats (readUserStatsS [⟨"Wordle", 3, true, 0, none⟩]) =
        .error "ZeroDivisionError" :=
  ⟨rfl, rfl⟩

/-- C9 amended: the user command has no per-entry zero-attempts guard and
no exclusion of any entry: it computes the success rate for every entry of
the mapping.  An entry with attempts zero raises ZeroDivisionError; every
entry with attempts at least one passes the rate division and then raises
AttributeError, because line 145 reads the nonexistent distribution
attribute of the stats object.  Hence for every nonempty row list with
positive totals the command aborts on its first entry with that
AttributeError and renders nothing. -/
theorem c9_amended (rows : List Row) (h : ∀ r ∈ rows, 1 ≤ r.total)
    (hne : rows ≠ []) :
    renderUserStats (readUserStatsS rows) = .error "AttributeError: distribution" := by
  have hinv := foldl_assocStep_inv
    (P := fun s => 1 ≤ s.attempts) rows []
    (fun r hr =>
      ⟨fun s hs => by simp only [applyRow]; omega,
       by have h2 := h r hr; simp only [applyRow, emptyStats]; omega⟩)
    (by simp)
  have hnil : readUserStatsS rows ≠ [] := by
    unfold readUserStatsS
    have : accumRows rows ≠ [] := by
      unfold accumRows
      cases rows with
      | nil => exact absurd rfl hne
      | cons r rest =>
        rw [List.foldl_cons]
        exact foldl_assocStep_ne_nil rest (assocStep [] r) (assocStep_ne_nil [] r)
    simpa using this
  cases hrs : readUserStatsS rows with
  | nil => exact absurd hrs hnil
  | cons q qs =>
    have hqmem : q ∈ readUserStatsS rows := by rw [hrs]; exact List.mem_cons_self _ _
    have hq1 : q.2.attempts ≠ 0 := by
      unfold readUserStatsS at hqmem
      obtain ⟨z, hz, rfl⟩ := List.mem_map.mp hqmem
      have := hinv z hz
      simp only [finalizeStats]
      omega
    have herr := renderEntry_attrError q hq1
    simp [renderUserStats, exceptMapList, herr]

/-- C9 witness: the amended theorem at a concrete positive-total row
list. -/
theorem c9_witness :
    renderUserStats (readUserStatsS [⟨"Wordle", 3, true, 2, none⟩]) =
      .error "AttributeError: distribution" :=
  c9_amended [⟨"Wordle", 3, true, 2, none⟩] (by decide) (by decide)

/-- C10: Semantle.parse never produces a failure record: every parsed
record has success true, and the first-guess share text parses to a record
with guesses 1. -/
theorem c10_semantle_success :
    (∀ (s : String) (r : Result), semantleParse s = some r → r.success = true) ∧
      semantleParse "I got Semantle 5 on my first guess!" =
        some { iteration := 5, success := true, guesses := 1 } := by
  constructor
  · intro s r h
    unfold semantleParse at h
    rcases hm : semSolvedMatch s with _ | ⟨it, g⟩ <;> rw [hm] at h
    · rcases hf : semFirstMatch s with _ | it <;> rw [hf] at h
      · cases h
      · cases h; rfl
    · cases h; rfl
  · rfl

/-- C10 witness: the success-field theorem applied to a concrete solved
share text. -/
theorem c10_witness :
    ({ iteration := 3, success := true, guesses := 7 } : Result).success = true :=
  c10_semantle_success.1 "I solved Semantle #3 in 7 guesses."
    { iteration := 3, success := true, guesses := 7 } rfl
